import Mathlib

/-
  Shallow embedding of the artifact store from src/store.rs and src/main.rs
  of olynch/artifacts-r-us.

  Paths are modelled as lists of components (a PathBuf is its list of
  normal components).  The filesystem is modelled explicitly as a value
  passed to every operation that the Rust code performs through std::fs,
  so stateful operations become pure functions of an Fs argument.
-/

namespace ArtifactsRUs

/-- Filesystem error kinds relevant to the store, standing in for io::Error. -/
inductive IoErr where
  | notFound
  | alreadyExists
  | invalidData (msg : String)
  deriving DecidableEq, Repr

/-- Mirrors the StoreError enum of src/store.rs lines 102-110.  The Rust
constructor named after the I/O module is rendered here as io. -/
inductive StoreError where
  | io (e : IoErr)
  | InvalidProject
  | InvalidVersion
  | InvalidFile
  | CorruptedVersion
  | UnprovidedAuthorization
  | Other (s : String)
  deriving DecidableEq, Repr

/-- Models Rust char::is_alphanumeric.  It agrees with the Rust predicate on
the ASCII range; Rust additionally accepts non-ASCII Unicode alphanumeric
characters, which no universally quantified theorem below depends on. -/
def rustIsAlphanumeric (c : Char) : Bool :=
  c.isAlphanum

/-- A project name, mirroring struct Project (src/store.rs line 41). -/
structure Project where
  name : String
  deriving DecidableEq, Repr

/-- Mirrors Project::new (src/store.rs lines 46-54): accept when every
character is alphanumeric or one of '-' and '_'. -/
def Project.new (name : String) : Except StoreError Project :=
  if !(name.toList.all (fun c => rustIsAlphanumeric c || ['-', '_'].contains c)) then
    .error .InvalidProject
  else
    .ok ⟨name⟩

/-- A read-capable handle on a project, mirroring struct ProjectReader. -/
structure ProjectReader where
  name : String
  deriving DecidableEq, Repr

/-- A write-capable handle on a project, mirroring struct ProjectWriter. -/
structure ProjectWriter where
  name : String
  deriving DecidableEq, Repr

/-- Mirrors ProjectWriter::reader (src/store.rs lines 76-78).  The Rust code
reinterprets the writer in place as a reader with the same single name
field; the embedding renders that as the pure name-preserving conversion.
It takes no filesystem argument: producing the reader performs no I/O. -/
def ProjectWriter.reader (w : ProjectWriter) : ProjectReader :=
  ⟨w.name⟩

/-- A version name, mirroring struct Version (src/store.rs line 81). -/
structure Version where
  name : String
  deriving DecidableEq, Repr

/-- Mirrors Version::new (src/store.rs lines 86-95), including its exact
condition: the rejection fires only when the character check fails AND the
first character is not a dot, so any name starting with a dot is accepted. -/
def Version.new (name : String) : Except StoreError Version :=
  if !(name.toList.all (fun c => rustIsAlphanumeric c || ['-', '_', '.'].contains c))
      && !(name.toList.head? == some '.') then
    .error .InvalidVersion
  else
    .ok ⟨name⟩

/-- A bearer credential, mirroring struct Credential (src/store.rs line 15). -/
structure Credential where
  token : String
  deriving DecidableEq, Repr

/-- The authorization header value as seen by HeaderValue::to_str: either
text that decodes, or bytes that make to_str fail. -/
inductive HeaderValue where
  | text (s : String)
  | nonText
  deriving DecidableEq, Repr

/-- Models str::starts_with over the character list (String.startsWith is
not kernel-reducible, this equivalent formulation is). -/
def rustStartsWith (s pre : String) : Bool :=
  s.toList.take pre.toList.length == pre.toList

/-- Mirrors Credential::from_headers (src/store.rs lines 20-38).  The header
map is represented by its authorization entry.  Rust takes the byte slice
val[7..]; since the matched seven-character ASCII second argument occupies
seven bytes, that equals dropping seven characters. -/
def Credential.from_headers (auth : Option HeaderValue) : Except StoreError Credential :=
  match auth with
  | none => .error .UnprovidedAuthorization
  | some .nonText => .error (.Other "bad header encoding")
  | some (.text val) =>
    if rustStartsWith val "Bearer " then
      .ok ⟨val.drop 7⟩
    else
      .error (.Other "unknown authentication method")

/-- Splits a character list at every slash, accumulating the current
segment in reverse (a kernel-reducible stand-in for String.splitOn). -/
def splitSlash : List Char → List Char → List String
  | [], acc => [String.mk acc.reverse]
  | c :: rest, acc =>
    if c == '/' then String.mk acc.reverse :: splitSlash rest []
    else splitSlash rest (c :: acc)

/-- Mirrors PathBuf::push at the component level: the pushed string is split
at slashes into its normal components (empty components and the
current-directory dot are not components); pushing an absolute path
replaces the whole path. -/
def pushPath (p : List String) (s : String) : List String :=
  let comps := (splitSlash s.toList []).filter (fun c => c != "" && c != ".")
  if s.toList.head? == some '/' then comps else p ++ comps

deriving instance DecidableEq for Except

deriving instance Repr for Except

/-- The filesystem: the set of existing directories, and the existing files
with their contents read as lines (a line is either decoded text or a read
failure, as produced by BufRead::lines). -/
structure Fs where
  dirs : List (List String)
  files : List (List String × List (Except Unit String))
  deriving DecidableEq, Repr

/-- Whether a directory exists at the path. -/
def Fs.isDir (fs : Fs) (p : List String) : Bool :=
  fs.dirs.contains p

/-- The lines of the file at the path, when a file exists there. -/
def Fs.lookupFile (fs : Fs) (p : List String) : Option (List (Except Unit String)) :=
  (fs.files.find? (fun e => e.fst == p)).map (fun e => e.snd)

/-- Whether anything (directory or file) exists at the path: fs::exists. -/
def Fs.pathExists (fs : Fs) (p : List String) : Bool :=
  fs.isDir p || (fs.lookupFile p).isSome

/-- The names of the immediate children of a directory. -/
def Fs.entries (fs : Fs) (p : List String) : List String :=
  (fs.dirs.filterMap (fun d =>
      if d.dropLast = p ∧ d ≠ [] then d.getLast? else none)) ++
  (fs.files.filterMap (fun e =>
      if e.fst.dropLast = p ∧ e.fst ≠ [] then e.fst.getLast? else none))

/-- Mirrors the read_dir helper (src/store.rs lines 128-139): list the entry
names of a directory, failing with an I/O error when the directory cannot be
read.  Entry names are Strings in the model, so the OS-string decode step of
the Rust helper always succeeds here. -/
def readDir (fs : Fs) (p : List String) : Except StoreError (List String) :=
  if fs.isDir p then .ok (fs.entries p) else .error (.io .notFound)

/-- Mirrors fs::create_dir: fails when something already exists at the path
or the parent directory is missing, otherwise records the new directory. -/
def createDir (fs : Fs) (p : List String) : Except IoErr Fs :=
  if fs.pathExists p then .error .alreadyExists
  else if p ≠ [] ∧ fs.isDir p.dropLast then .ok { fs with dirs := p :: fs.dirs }
  else .error .notFound

/-- Mirrors fs::write creating (or truncating) a file at the path. -/
def writeFile (fs : Fs) (p : List String) (lines : List (Except Unit String)) : Fs :=
  { fs with files := (p, lines) :: fs.files }

/-- Mirrors the file_contains helper (src/store.rs lines 141-147): open the
file, then scan its lines; a line equals the needle only when it reads
successfully and is byte-for-byte equal, and a line that fails to read
counts as a non-match without ending the scan. -/
def fileContains (fs : Fs) (p : List String) (line : String) : Except IoErr Bool :=
  match fs.lookupFile p with
  | none => .error .notFound
  | some ls =>
    .ok (ls.any (fun l =>
      match l with
      | .ok s => s == line
      | .error _ => false))

/-- The store, mirroring struct Store: the root directory of the state. -/
structure Store where
  dir : List String
  deriving DecidableEq, Repr

/-- Mirrors Store::authorized_reader (src/store.rs lines 176-185): check the
token against <root>/<project>/readers.txt via file_contains; an open or
read failure surfaces as an I/O error, a completed scan with no matching
line as the unauthorized-reader error. -/
def Store.authorized_reader (st : Store) (fs : Fs) (cred : Credential) (project : Project) :
    Except StoreError Unit :=
  let reader_list_path := pushPath (pushPath st.dir project.name) "readers.txt"
  match fileContains fs reader_list_path cred.token with
  | .error e => .error (.io e)
  | .ok true => .ok ()
  | .ok false => .error (.Other "unauthorized reader")

/-- Mirrors Store::authorized_writer (src/store.rs lines 187-196). -/
def Store.authorized_writer (st : Store) (fs : Fs) (cred : Credential) (project : Project) :
    Except StoreError Unit :=
  let writer_list_path := pushPath (pushPath st.dir project.name) "writers.txt"
  match fileContains fs writer_list_path cred.token with
  | .error e => .error (.io e)
  | .ok true => .ok ()
  | .ok false => .error (.Other "unauthorized writer")

/-- Mirrors Store::list_projects (src/store.rs lines 198-200). -/
def Store.list_projects (st : Store) (fs : Fs) : Except StoreError (List String) :=
  readDir fs st.dir

/-- Mirrors Store::versions_dir (src/store.rs lines 202-207). -/
def Store.versions_dir (st : Store) (project : ProjectReader) : List String :=
  pushPath (pushPath st.dir project.name) "versions"

/-- Mirrors Store::list_versions (src/store.rs lines 209-211). -/
def Store.list_versions (st : Store) (fs : Fs) (project : ProjectReader) :
    Except StoreError (List String) :=
  readDir fs (st.versions_dir project)

/-- Mirrors Store::file_for_version (src/store.rs lines 213-225): read the
version directory; when it holds exactly one entry return that entry, and
when it holds any other number of entries fail as corrupted. -/
def Store.file_for_version (st : Store) (fs : Fs) (project : ProjectReader) (version : Version) :
    Except StoreError String :=
  let version_dir := pushPath (st.versions_dir project) version.name
  match readDir fs version_dir with
  | .error e => .error e
  | .ok [f] => .ok f
  | .ok _ => .error .CorruptedVersion

/-- Mirrors Store::path_for_version (src/store.rs lines 227-237): resolve
the single file of the version and return <versions_dir>/<version>/<file>. -/
def Store.path_for_version (st : Store) (fs : Fs) (project : ProjectReader) (version : Version) :
    Except StoreError (List String) :=
  match st.file_for_version fs project version with
  | .error e => .error e
  | .ok file => .ok (pushPath (pushPath (st.versions_dir project) version.name) file)

/-- Mirrors Store::outpath_for (src/store.rs lines 239-259): when the
version path exists and reading it shows at least one entry, fail with the
version-already-exists error; otherwise call fs::create_dir on the version
path (propagating its failure as an I/O error) and return the destination
path together with the updated filesystem. -/
def Store.outpath_for (st : Store) (fs : Fs) (project : ProjectWriter) (version : Version)
    (file_name : String) : Except StoreError (List String × Fs) :=
  let version_path := pushPath (st.versions_dir project.reader) version.name
  match
    ((if fs.pathExists version_path then
      match readDir fs version_path with
      | .error e => .error e
      | .ok entries =>
        if !entries.isEmpty then .error (.Other "version already exists") else .ok ()
    else .ok ()) : Except StoreError Unit) with
  | .error e => .error e
  | .ok () =>
    match createDir fs version_path with
    | .error e => .error (.io e)
    | .ok fs2 => .ok (pushPath version_path file_name, fs2)

/-- A sample filesystem: one project p with one version v1 holding one
artifact file, plus allow-lists for readers and writers. -/
def sampleFs : Fs :=
  { dirs := [["root"], ["root", "p"], ["root", "p", "versions"],
      ["root", "p", "versions", "v1"]],
    files := [(["root", "p", "versions", "v1", "art.tar"], []),
      (["root", "p", "readers.txt"], [.error (), .ok "tok"]),
      (["root", "p", "writers.txt"], [.ok "wtok"])] }

/-- Pushing the empty string onto a path leaves the path unchanged: the
empty string contributes no components. -/
theorem pushPath_empty (p : List String) : pushPath p "" = p := by
  have h : pushPath p "" = p ++ [] := rfl
  rw [h, List.append_nil]

/-- The line scan of file_contains succeeds exactly when some line reads
successfully and equals the needle byte-for-byte. -/
theorem linesAny_iff (ls : List (Except Unit String)) (tok : String) :
    (ls.any (fun l =>
      match l with
      | .ok s => s == tok
      | .error _ => false) = true)
      ↔ Except.ok tok ∈ ls := by
  induction ls with
  | nil => simp
  | cons l ls ih =>
    cases l with
    | error u => simp [List.any_cons, ih]
    | ok s =>
      simp only [List.any_cons, Bool.or_eq_true, beq_iff_eq, ih, List.mem_cons,
        Except.ok.injEq]
      constructor
      · rintro (h | h)
        · exact Or.inl h.symm
        · exact Or.inr h
      · rintro (h | h)
        · exact Or.inl h.symm
        · exact Or.inr h

/-- Pushing a single normal component (no slash, not empty, not the
current-directory dot) appends exactly that component. -/
theorem pushPath_single (p : List String) (f : String)
    (hsplit : (splitSlash f.toList []).filter (fun c => c != "" && c != ".") = [f])
    (hslash : (f.toList.head? == some '/') = false) :
    pushPath p f = p ++ [f] := by
  simp only [pushPath]
  rw [hsplit, hslash]
  simp

/-- When the allow-list file is missing, the membership check surfaces the
open failure. -/
theorem fileContains_missing (fs : Fs) (path : List String) (tok : String)
    (hnone : fs.lookupFile path = none) :
    fileContains fs path tok = .error .notFound := by
  unfold fileContains
  rw [hnone]

/-- When the allow-list file opens, the membership check returns the line
scan result. -/
theorem fileContains_some (fs : Fs) (path : List String) (tok : String)
    (ls : List (Except Unit String)) (hls : fs.lookupFile path = some ls) :
    fileContains fs path tok = .ok (ls.any (fun l =>
      match l with
      | .ok s => s == tok
      | .error _ => false)) := by
  unfold fileContains
  rw [hls]

/-- C1: the claim that every version name containing a path separator or
the substring of two dots is rejected fails on the code: the rejection in
Version::new fires only when the first character is not a dot, so the
names ".." and "../escape" are accepted, and pushing ".." onto a path
appends a parent-directory component with no further escaping. -/
theorem version_validation_accepts_dotdot :
    Version.new ".." = .ok ⟨".."⟩ ∧
    Version.new "../escape" = .ok ⟨"../escape"⟩ ∧
    pushPath ["root", "p", "versions"] ".." = ["root", "p", "versions", ".."] := by
  decide

/-- C2: the write-once law fails on its retry half.  From a store whose
project directory exists with an empty versions directory: the first
outpath_for call succeeds and creates the version directory; a second call
with no file written fails with an I/O already-exists failure from
fs::create_dir instead of succeeding; after a file is written, a second
call fails with the version-already-exists failure as claimed. -/
theorem outpath_for_not_idempotent_on_empty_dir :
    (⟨["root"]⟩ : Store).outpath_for
        { dirs := [["root"], ["root", "p"], ["root", "p", "versions"]], files := [] }
        ⟨"p"⟩ ⟨"v1"⟩ "f.tar"
      = .ok (["root", "p", "versions", "v1", "f.tar"],
          { dirs := [["root", "p", "versions", "v1"], ["root"], ["root", "p"],
              ["root", "p", "versions"]], files := [] }) ∧
    (⟨["root"]⟩ : Store).outpath_for
        { dirs := [["root", "p", "versions", "v1"], ["root"], ["root", "p"],
            ["root", "p", "versions"]], files := [] }
        ⟨"p"⟩ ⟨"v1"⟩ "f.tar"
      = .error (.io .alreadyExists) ∧
    (⟨["root"]⟩ : Store).outpath_for
        (writeFile { dirs := [["root", "p", "versions", "v1"], ["root"], ["root", "p"],
            ["root", "p", "versions"]], files := [] }
          ["root", "p", "versions", "v1", "f.tar"] [])
        ⟨"p"⟩ ⟨"v1"⟩ "g.tar"
      = .error (.Other "version already exists") := by
  decide

/-- C3: authorization is exact-match: when the allow-list file opens,
authorized_reader (resp. authorized_writer) succeeds iff some line of
readers.txt (resp. writers.txt) is byte-for-byte equal to the token.
Substrings and case-variants differ from every equal line and so are
rejected, membership is position-independent, and a line that fails to
read is a non-match that does not end the scan. -/
theorem authorization_exact_match (st : Store) (fs : Fs) (cred : Credential) (p : Project)
    (rlines wlines : List (Except Unit String))
    (hr : fs.lookupFile (pushPath (pushPath st.dir p.name) "readers.txt") = some rlines)
    (hw : fs.lookupFile (pushPath (pushPath st.dir p.name) "writers.txt") = some wlines) :
    (st.authorized_reader fs cred p = .ok () ↔ Except.ok cred.token ∈ rlines) ∧
    (st.authorized_writer fs cred p = .ok () ↔ Except.ok cred.token ∈ wlines) := by
  constructor
  · simp only [Store.authorized_reader]
    rw [fileContains_some fs _ cred.token rlines hr]
    cases hAny : rlines.any (fun l =>
        match l with
        | .ok s => s == cred.token
        | .error _ => false) with
    | true =>
      constructor
      · intro _
        exact (linesAny_iff rlines cred.token).mp hAny
      · intro _
        rfl
    | false =>
      constructor
      · intro h
        exact Except.noConfusion h
      · intro hm
        have h2 := (linesAny_iff rlines cred.token).mpr hm
        rw [hAny] at h2
        exact Bool.noConfusion h2
  · simp only [Store.authorized_writer]
    rw [fileContains_some fs _ cred.token wlines hw]
    cases hAny : wlines.any (fun l =>
        match l with
        | .ok s => s == cred.token
        | .error _ => false) with
    | true =>
      constructor
      · intro _
        exact (linesAny_iff wlines cred.token).mp hAny
      · intro _
        rfl
    | false =>
      constructor
      · intro h
        exact Except.noConfusion h
      · intro hm
        have h2 := (linesAny_iff wlines cred.token).mpr hm
        rw [hAny] at h2
        exact Bool.noConfusion h2

/-- Witness for C3: in the sample store the token on the second line of
readers.txt is accepted even though the first line fails to read, and the
corresponding membership statements hold. -/
theorem authorization_exact_match_witness :
    ((⟨["root"]⟩ : Store).authorized_reader sampleFs ⟨"tok"⟩ ⟨"p"⟩ = .ok ()
      ↔ Except.ok "tok" ∈ ([.error (), .ok "tok"] : List (Except Unit String))) ∧
    ((⟨["root"]⟩ : Store).authorized_writer sampleFs ⟨"tok"⟩ ⟨"p"⟩ = .ok ()
      ↔ Except.ok "tok" ∈ ([.ok "wtok"] : List (Except Unit String))) :=
  authorization_exact_match ⟨["root"]⟩ sampleFs ⟨"tok"⟩ ⟨"p"⟩
    [.error (), .ok "tok"] [.ok "wtok"] (by decide) (by decide)

/-- C4: the claim that Project::new accepts exactly the ASCII regex fails
on the code: the all-characters check is vacuous on the empty string, so
the empty project name is accepted, and pushing it onto a path leaves the
path at the store root. -/
theorem project_validation_accepts_empty :
    Project.new "" = .ok ⟨""⟩ ∧ pushPath ["store"] "" = ["store"] := by
  decide

/-- C5: when reading the version directory succeeds, a single entry is
returned by file_for_version and path_for_version returns the directory
path extended by the version name and that entry; zero or several entries
make both fail as corrupted. -/
theorem resolver_single_entry (st : Store) (fs : Fs) (r : ProjectReader) (v : Version)
    (entries : List String)
    (hdir : readDir fs (pushPath (st.versions_dir r) v.name) = .ok entries) :
    (∀ f, entries = [f] →
      st.file_for_version fs r v = .ok f ∧
      st.path_for_version fs r v
        = .ok (pushPath (pushPath (st.versions_dir r) v.name) f)) ∧
    (∀ f, entries = [f] →
      ((splitSlash f.toList []).filter (fun c => c != "" && c != ".") = [f]) →
      (f.toList.head? == some '/') = false →
      st.path_for_version fs r v
        = .ok ((pushPath (st.versions_dir r) v.name) ++ [f])) ∧
    (entries.length ≠ 1 →
      st.file_for_version fs r v = .error .CorruptedVersion ∧
      st.path_for_version fs r v = .error .CorruptedVersion) := by
  have hfile : ∀ f, entries = [f] → st.file_for_version fs r v = .ok f := by
    intro f hf
    subst hf
    simp only [Store.file_for_version]
    rw [hdir]
  have hcorr : entries.length ≠ 1 →
      st.file_for_version fs r v = .error .CorruptedVersion := by
    intro hlen
    cases entries with
    | nil =>
      simp only [Store.file_for_version]
      rw [hdir]
    | cons a tail =>
      cases tail with
      | nil => exact absurd rfl hlen
      | cons b tail2 =>
        simp only [Store.file_for_version]
        rw [hdir]
  refine ⟨?_, ?_, ?_⟩
  · intro f hf
    have h1 := hfile f hf
    refine ⟨h1, ?_⟩
    simp only [Store.path_for_version]
    rw [h1]
  · intro f hf hsplit hslash
    have h1 := hfile f hf
    simp only [Store.path_for_version]
    rw [h1]
    exact congrArg Except.ok (pushPath_single _ f hsplit hslash)
  · intro hlen
    have h1 := hcorr hlen
    refine ⟨h1, ?_⟩
    simp only [Store.path_for_version]
    rw [h1]

/-- Witness for C5: in the sample store, version v1 of project p holds the
single file art.tar and both resolvers return it. -/
theorem resolver_single_entry_witness :
    (⟨["root"]⟩ : Store).file_for_version sampleFs ⟨"p"⟩ ⟨"v1"⟩ = .ok "art.tar" ∧
    (⟨["root"]⟩ : Store).path_for_version sampleFs ⟨"p"⟩ ⟨"v1"⟩
      = .ok (pushPath (pushPath ((⟨["root"]⟩ : Store).versions_dir ⟨"p"⟩) "v1") "art.tar") :=
  (resolver_single_entry ⟨["root"]⟩ sampleFs ⟨"p"⟩ ⟨"v1"⟩ ["art.tar"] (by decide)).1
    "art.tar" rfl

/-- C6: a missing allow-list file surfaces as an I/O failure, while an
opened file with no matching line surfaces as the unauthorized failure,
and the two failure kinds are distinct constructors of StoreError. -/
theorem authorization_error_kinds (st : Store) (fs : Fs) (cred : Credential) (p : Project) :
    (fs.lookupFile (pushPath (pushPath st.dir p.name) "readers.txt") = none →
      st.authorized_reader fs cred p = .error (.io .notFound)) ∧
    (∀ ls, fs.lookupFile (pushPath (pushPath st.dir p.name) "readers.txt") = some ls →
      Except.ok cred.token ∉ ls →
      st.authorized_reader fs cred p = .error (.Other "unauthorized reader")) ∧
    (fs.lookupFile (pushPath (pushPath st.dir p.name) "writers.txt") = none →
      st.authorized_writer fs cred p = .error (.io .notFound)) ∧
    (∀ ls, fs.lookupFile (pushPath (pushPath st.dir p.name) "writers.txt") = some ls →
      Except.ok cred.token ∉ ls →
      st.authorized_writer fs cred p = .error (.Other "unauthorized writer")) ∧
    (∀ e s, StoreError.io e ≠ StoreError.Other s) := by
  refine ⟨?_, ?_, ?_, ?_, ?_⟩
  · intro hnone
    simp only [Store.authorized_reader]
    rw [fileContains_missing fs _ cred.token hnone]
  · intro ls hls hnot
    simp only [Store.authorized_reader]
    rw [fileContains_some fs _ cred.token ls hls]
    have hfalse : ls.any (fun l =>
        match l with
        | .ok s => s == cred.token
        | .error _ => false) = false := by
      cases h : ls.any (fun l =>
          match l with
          | .ok s => s == cred.token
          | .error _ => false) with
      | false => rfl
      | true => exact absurd ((linesAny_iff ls cred.token).mp h) hnot
    rw [hfalse]
  · intro hnone
    simp only [Store.authorized_writer]
    rw [fileContains_missing fs _ cred.token hnone]
  · intro ls hls hnot
    simp only [Store.authorized_writer]
    rw [fileContains_some fs _ cred.token ls hls]
    have hfalse : ls.any (fun l =>
        match l with
        | .ok s => s == cred.token
        | .error _ => false) = false := by
      cases h : ls.any (fun l =>
          match l with
          | .ok s => s == cred.token
          | .error _ => false) with
      | false => rfl
      | true => exact absurd ((linesAny_iff ls cred.token).mp h) hnot
    rw [hfalse]
  · intro e s h
    exact StoreError.noConfusion h

/-- Witness for C6: against an empty filesystem the reader check fails
with the I/O failure, not the unauthorized one. -/
theorem authorization_error_kinds_witness :
    (⟨["root"]⟩ : Store).authorized_reader ⟨[], []⟩ ⟨"tok"⟩ ⟨"p"⟩ = .error (.io .notFound) :=
  (authorization_error_kinds ⟨["root"]⟩ ⟨[], []⟩ ⟨"tok"⟩ ⟨"p"⟩).1 (by decide)

/-- C7: credential extraction is total over the three header shapes: a
missing header fails with UnprovidedAuthorization, a non-text or
non-Bearer header fails with the Other failure, and a Bearer-prefixed
header yields the token that follows the seven-character prefix. -/
theorem credential_extraction_total (auth : Option HeaderValue) :
    (auth = none →
      Credential.from_headers auth = .error .UnprovidedAuthorization) ∧
    (auth = some .nonText →
      Credential.from_headers auth = .error (.Other "bad header encoding")) ∧
    (∀ s, auth = some (.text s) → rustStartsWith s "Bearer " = false →
      Credential.from_headers auth = .error (.Other "unknown authentication method")) ∧
    (∀ s, auth = some (.text s) → rustStartsWith s "Bearer " = true →
      Credential.from_headers auth = .ok ⟨s.drop 7⟩) := by
  refine ⟨?_, ?_, ?_, ?_⟩
  · intro h
    subst h
    rfl
  · intro h
    subst h
    rfl
  · intro s h hpre
    subst h
    simp [Credential.from_headers, hpre]
  · intro s h hpre
    subst h
    simp [Credential.from_headers, hpre]

/-- Witness for C7: the header consisting of the bare Bearer prefix yields
the empty token. -/
theorem credential_extraction_total_witness :
    Credential.from_headers (some (.text "Bearer ")) = .ok ⟨""⟩ :=
  (credential_extraction_total _).2.2.2 "Bearer " rfl (by decide)

/-- C8: the reader derived from a writer is the pure name-preserving
conversion: it has the same name and is computed from the writer value
alone, with no filesystem argument and no allow-list check. -/
theorem writer_reader_pure_conversion (w : ProjectWriter) :
    (w.reader).name = w.name ∧ w.reader = ProjectReader.mk w.name :=
  ⟨rfl, rfl⟩

/-- C9: with no intervening filesystem change, two calls of list_projects
return the same set of names, and likewise for list_versions with the
same reader. -/
theorem listing_idempotent (st : Store) (fs : Fs) (r : ProjectReader)
    (xs ys vs ws : List String)
    (h1 : st.list_projects fs = .ok xs) (h2 : st.list_projects fs = .ok ys)
    (h3 : st.list_versions fs r = .ok vs) (h4 : st.list_versions fs r = .ok ws) :
    (∀ x, x ∈ xs ↔ x ∈ ys) ∧ (∀ v, v ∈ vs ↔ v ∈ ws) := by
  rw [h1] at h2
  rw [h3] at h4
  injection h2 with h2
  injection h4 with h4
  subst h2
  subst h4
  exact ⟨fun _ => Iff.rfl, fun _ => Iff.rfl⟩

/-- Witness for C9: both listings succeed on the sample store and the set
statements hold at its project and version names. -/
theorem listing_idempotent_witness :
    ("p" ∈ ["p"] ↔ "p" ∈ ["p"]) ∧ ("v1" ∈ ["v1"] ↔ "v1" ∈ ["v1"]) := by
  have h := listing_idempotent ⟨["root"]⟩ sampleFs ⟨"p"⟩ ["p"] ["p"] ["v1"] ["v1"]
    (by decide) (by decide) (by decide) (by decide)
  exact ⟨h.1 "p", h.2 "v1"⟩

/-- C10: the empty version name is accepted by Version::new, and version
resolution invoked with it reads the versions directory of the project
itself, since pushing the empty name onto the versions path leaves the
path unchanged. -/
theorem empty_version_accepted :
    Version.new "" = .ok ⟨""⟩ ∧
    ∀ (st : Store) (fs : Fs) (r : ProjectReader),
      st.file_for_version fs r ⟨""⟩ =
        (match readDir fs (st.versions_dir r) with
         | .error e => .error e
         | .ok [f] => .ok f
         | .ok _ => .error .CorruptedVersion) := by
  refine ⟨by decide, ?_⟩
  intro st fs r
  simp only [Store.file_for_version]
  rw [pushPath_empty]

end ArtifactsRUs
